/-
Verification of the collective-communication coordination layer in
`xla/service/gpu/nccl_collective_thunk.cc`, via a shallow embedding:
each C++ function relevant to the checked properties is translated to an
executable Lean definition, and the properties are proved as theorems
about those definitions.

Conventions of the embedding:
* machine integers (`int64_t`, `int`) become `Int`;
* `absl::Status` becomes `Except ErrorCode Unit`, `absl::StatusOr<T>`
  becomes `Except ErrorCode T`;
* a fatal `CHECK` failure is modelled by an `Option` result being `none`;
* external collaborators whose code is outside this file's scope
  (participant resolution, the clique registry, the NCCL driver calls)
  are passed in as explicit oracle arguments, so that control-flow and
  bookkeeping of the functions under verification stay exact.
-/
import Mathlib

set_option autoImplicit false

namespace XlaGpu

/-- Error codes of the `absl::Status` values produced or propagated by the
functions under verification. `InvalidArgument` carries the message so that
the specific "partial replica groups" error is distinguishable from
errors returned by oracles. -/
inductive ErrorCode where
  | Internal (msg : String)
  | InvalidArgument (msg : String)
  | FailedPrecondition (msg : String)
  | Unimplemented (msg : String)
  | Other (msg : String)
  deriving DecidableEq, Repr

/-- `absl::Status`: `Ok` or an error. -/
abbrev Status := Except ErrorCode Unit

instance {ε α : Type} [DecidableEq ε] [DecidableEq α] :
    DecidableEq (Except ε α) := fun a b =>
  match a, b with
  | .ok x, .ok y =>
      if h : x = y then .isTrue (by rw [h])
      else .isFalse (fun hc => h (Except.ok.inj hc))
  | .ok _, .error _ => .isFalse (fun hc => Except.noConfusion hc)
  | .error _, .ok _ => .isFalse (fun hc => Except.noConfusion hc)
  | .error e, .error f =>
      if h : e = f then .isTrue (by rw [h])
      else .isFalse (fun hc => h (Except.error.inj hc))

/-- `CollectiveOpGroupMode` from `collective_ops_utils.h`: the four group
modes of a collective operation. -/
inductive CollectiveOpGroupMode where
  | kCrossReplica
  | kCrossPartition
  | kCrossReplicaAndPartition
  | kFlattenedID
  deriving DecidableEq, Repr

/-- `ReplicaGroup` proto: one group, an ordered list of integer ids.
`replica_ids_size()` is the length of `replica_ids`. -/
structure ReplicaGroup where
  replica_ids : List Int
  deriving DecidableEq, Repr

def ReplicaGroup.replica_ids_size (g : ReplicaGroup) : Nat :=
  g.replica_ids.length

/-- The fields of `NcclCollectiveConfig` that `IsDegenerate` reads. -/
structure NcclCollectiveConfig where
  replica_groups : List ReplicaGroup
  group_mode : CollectiveOpGroupMode
  deriving DecidableEq, Repr

/-- `NcclCollectiveConfig::IsDegenerate` from `nccl_collective_thunk.cc`.
The result is `none` when the C++ dies on a failed `CHECK` (flattened-id
mode with empty replica groups), and `some b` when it returns `b`. -/
def NcclCollectiveConfig.IsDegenerate (c : NcclCollectiveConfig)
    (replica_count partition_count : Int) : Option Bool :=
  let groups_empty := c.replica_groups.isEmpty
  let all_groups_singleton :=
    !groups_empty &&
      c.replica_groups.all (fun group => group.replica_ids_size == 1)
  match c.group_mode with
  | .kCrossReplica =>
      some (all_groups_singleton || (groups_empty && replica_count == 1))
  | .kCrossPartition =>
      some (all_groups_singleton || (groups_empty && partition_count == 1))
  | .kCrossReplicaAndPartition =>
      some ((all_groups_singleton && partition_count == 1) ||
        (groups_empty && replica_count == 1 && partition_count == 1))
  | .kFlattenedID =>
      if groups_empty then none  -- CHECK(!groups_empty) fires
      else some all_groups_singleton

/-- The spec's notion "all groups are singleton": there is at least one
group and every group has exactly one member (the code's
`all_groups_singleton`, which conjoins `!groups_empty`). -/
def AllGroupsSingleton (c : NcclCollectiveConfig) : Prop :=
  c.replica_groups ≠ [] ∧
    ∀ g ∈ c.replica_groups, g.replica_ids.length = 1

instance (c : NcclCollectiveConfig) : Decidable (AllGroupsSingleton c) := by
  unfold AllGroupsSingleton; infer_instance

/-- XLA `PrimitiveType` element types (the cases that
`IsTypeSupportedByNccl` distinguishes, plus representative types that
fall through to its `default: return false` arm). -/
inductive PrimitiveType where
  | PRED | S4 | S8 | S16 | S32 | S64
  | U4 | U8 | U16 | U32 | U64
  | F16 | F32 | F64 | BF16
  | F8E5M2 | F8E4M3FN | F8E4M3B11FNUZ | F8E5M2FNUZ | F8E4M3FNUZ
  | C64 | C128 | TUPLE | TOKEN
  deriving DecidableEq, Repr, Fintype

/-- The NCCL-backed collective `Thunk::Kind` tags (the operation kinds the
spec's executor dispatches over: reduce, gather, broadcast, permute,
all-to-all, send/recv, plus their async start variants). -/
inductive Thunk.Kind where
  | kNcclAllGather | kNcclAllGatherStart
  | kNcclAllReduce | kNcclAllReduceStart
  | kNcclCollectiveBroadcast | kNcclCollectiveBroadcastStart
  | kNcclCollectivePermute | kNcclCollectivePermuteStart
  | kNcclReduceScatter | kNcclReduceScatterStart
  | kNcclAllToAll | kNcclAllToAllStart
  | kNcclSend | kNcclRecv
  deriving DecidableEq, Repr, Fintype

/-- Modelled from the spec: `IsReductionCollective` (declared in
`nccl_collective_thunk.h`, which is outside the provided sources) — true
exactly for the reducing collective kinds (all-reduce and reduce-scatter,
sync or async start); broadcast/permute/all-to-all/gather/send/recv are
non-reducing data movement. -/
def IsReductionCollective (kind : Thunk.Kind) : Bool :=
  match kind with
  | .kNcclAllReduce | .kNcclAllReduceStart
  | .kNcclReduceScatter | .kNcclReduceScatterStart => true
  | _ => false

/-- `IsTypeSupportedByNccl` from `nccl_collective_thunk.cc`: the 13 types
that are always supported; S16/U16/F8E5M2/F8E4M3FN supported only for
non-reducing operations; everything else unsupported. -/
def IsTypeSupportedByNccl (element_type : PrimitiveType)
    (reduction_op : Thunk.Kind) : Bool :=
  match element_type with
  | .S8 | .PRED | .U8 | .S32 | .U32 | .S64 | .U64
  | .F16 | .F32 | .F64 | .BF16 | .C64 | .C128 => true
  | .S16 | .U16 | .F8E5M2 | .F8E4M3FN =>
      !IsReductionCollective reduction_op
  | _ => false

/-- The shape data `IsValidOperand` reads: the element type, and whether
the shape is a dense array. The dense-array bit models
`LayoutUtil::IsDenseArray` (its sources are outside the provided files;
the spec requires "dense layout"). -/
structure Shape where
  element_type : PrimitiveType
  dense_array : Bool
  deriving DecidableEq, Repr

/-- Modelled from the spec: `LayoutUtil::IsDenseArray` — whether the
operand shape is a dense array. -/
def LayoutUtil.IsDenseArray (shape : Shape) : Bool :=
  shape.dense_array

/-- `IsValidOperand(Shape, Thunk::Kind)` from `nccl_collective_thunk.cc`:
rejects non-dense shapes, then rejects element types unsupported by NCCL
for the given operation kind. -/
def IsValidOperand (shape : Shape) (reduction_op : Thunk.Kind) : Status :=
  if !(LayoutUtil.IsDenseArray shape) then
    .error (.Unimplemented "input is not a dense array")
  else if !(IsTypeSupportedByNccl shape.element_type reduction_op) then
    .error (.Unimplemented "element type not suppored by NCCL")
  else
    .ok ()

/-- The element types the NCCL transport supports for at least one
operation kind: the cases of `IsTypeSupportedByNccl` that do not fall
through to `default: return false`. -/
def NcclSupportedTypes : List PrimitiveType :=
  [.S8, .PRED, .U8, .S32, .U32, .S64, .U64, .F16, .F32, .F64, .BF16,
   .C64, .C128, .S16, .U16, .F8E5M2, .F8E4M3FN]

/-- `se::StreamExecutor*`: the identity of an executor context. -/
abbrev StreamExecutor := Nat

/-- `se::Event`: the identity of a completion event. -/
abbrev Event := Nat

/-- State of `NcclCollectiveThunk::AsyncEvents`: the mutex-guarded
`absl::flat_hash_map<se::StreamExecutor*, se::Event> events_`, as an
association list keyed by executor. -/
structure AsyncEvents where
  events : List (StreamExecutor × Event)
  deriving DecidableEq, Repr

/-- Lookup in the `events_` map (`events_.find(executor)`). -/
def AsyncEvents.find? (s : AsyncEvents) (executor : StreamExecutor) :
    Option Event :=
  (s.events.find? (fun p => p.1 == executor)).map (·.2)

/-- `AsyncEvents::Initialize`: no-op if the executor already has an event;
otherwise creates an event (`init_ok` is the oracle for `event.Init()`
succeeding, `fresh_event` the identity of the created event) and inserts
it via `try_emplace`. -/
def AsyncEvents.Initialize (s : AsyncEvents) (executor : StreamExecutor)
    (init_ok : Bool) (fresh_event : Event) : Status × AsyncEvents :=
  if (s.find? executor).isSome then
    (.ok (), s)
  else if !init_ok then
    (.error (.Internal
      "Failed to initialize collective operation async completion event"),
      s)
  else
    (.ok (), ⟨s.events ++ [(executor, fresh_event)]⟩)

/-- `AsyncEvents::GetEvent`: returns the stored event, or an `Internal`
error when the executor was never initialized; the map is returned
unchanged (the body only does `events_.find`). -/
def AsyncEvents.GetEvent (s : AsyncEvents) (executor : StreamExecutor) :
    Except ErrorCode Event × AsyncEvents :=
  match s.find? executor with
  | none =>
      (.error (.Internal
        "Collective operation async completion event not initialized"), s)
  | some e => (.ok e, s)

/-- `NcclCollectiveDoneThunk::ExecuteOnStream`: looks up the completion
event for the stream's executor and waits the stream on it. The second
component records the `ThenWaitFor` calls issued on the stream. -/
def NcclCollectiveDoneThunk.ExecuteOnStream (async_events : AsyncEvents)
    (executor : StreamExecutor) : Status × List Event :=
  match (async_events.GetEvent executor).1 with
  | .error e => (.error e, [])
  | .ok event => (.ok (), [event])

/-- One call into an `AsyncEvents` object: an `Initialize` call (with the
oracle outcome for event creation) or a `GetEvent` call. -/
inductive AsyncEventsOp where
  | initCall (executor : StreamExecutor) (init_ok : Bool)
      (fresh_event : Event)
  | getCall (executor : StreamExecutor)
  deriving DecidableEq, Repr

/-- Run a sequence of calls against an `AsyncEvents` object. -/
def AsyncEvents.run (s : AsyncEvents) : List AsyncEventsOp → AsyncEvents
  | [] => s
  | .initCall ex ok ev :: ops => ((s.Initialize ex ok ev).2).run ops
  | .getCall ex :: ops => ((s.GetEvent ex).2).run ops

/-- Whether a call sequence, run from state `s`, contains an
`Initialize` call for `executor` that returns Ok. -/
def AsyncEvents.InitializeSucceededFor (s : AsyncEvents)
    (executor : StreamExecutor) : List AsyncEventsOp → Prop
  | [] => False
  | .initCall ex ok ev :: ops =>
      (ex = executor ∧ (s.Initialize ex ok ev).1 = .ok ()) ∨
        InitializeSucceededFor (s.Initialize ex ok ev).2 executor ops
  | .getCall ex :: ops => InitializeSucceededFor (s.GetEvent ex).2 executor ops

/-- `GetEvent` never modifies the map. -/
theorem AsyncEvents.getEvent_state (s : AsyncEvents) (ex : StreamExecutor) :
    (s.GetEvent ex).2 = s := by
  unfold AsyncEvents.GetEvent
  cases s.find? ex <;> rfl

/-- `Initialize` for one executor does not change the lookup result of a
different executor. -/
theorem AsyncEvents.find?_initialize_other (s : AsyncEvents)
    (ex executor : StreamExecutor) (ok : Bool) (ev : Event)
    (hne : ex ≠ executor) :
    ((s.Initialize ex ok ev).2).find? executor = s.find? executor := by
  unfold AsyncEvents.Initialize
  split
  · rfl
  · split
    · rfl
    · simp [AsyncEvents.find?, List.find?_append, hne]

/-- A failed `Initialize` leaves the map unchanged. -/
theorem AsyncEvents.initialize_failed_state (s : AsyncEvents)
    (ex : StreamExecutor) (ok : Bool) (ev : Event)
    (h : (s.Initialize ex ok ev).1 ≠ .ok ()) :
    (s.Initialize ex ok ev).2 = s := by
  unfold AsyncEvents.Initialize at *
  by_cases h1 : (s.find? ex).isSome
  · simp [h1] at h
  · by_cases h2 : ok
    · simp [h1, h2] at h
    · simp [h1, h2]

/-- An executor that was never the subject of a successful `Initialize`
stays absent from the map across any call sequence. -/
theorem AsyncEvents.find?_run_of_no_init (s : AsyncEvents)
    (executor : StreamExecutor) (ops : List AsyncEventsOp)
    (habs : s.find? executor = none)
    (h : ¬ s.InitializeSucceededFor executor ops) :
    (s.run ops).find? executor = none := by
  induction ops generalizing s with
  | nil => exact habs
  | cons op ops ih =>
    cases op with
    | getCall ex =>
        rw [AsyncEvents.run, AsyncEvents.getEvent_state]
        refine ih s habs ?_
        intro hc
        exact h (by
          rw [AsyncEvents.InitializeSucceededFor, AsyncEvents.getEvent_state]
          exact hc)
    | initCall ex ok ev =>
        rw [AsyncEvents.InitializeSucceededFor] at h
        push_neg at h
        obtain ⟨h1, h2⟩ := h
        rw [AsyncEvents.run]
        by_cases hex : ex = executor
        · subst hex
          have hfail : (s.Initialize ex ok ev).1 ≠ .ok () := h1 rfl
          rw [AsyncEvents.initialize_failed_state s ex ok ev hfail] at h2 ⊢
          exact ih s habs h2
        · refine ih _ ?_ h2
          rw [AsyncEvents.find?_initialize_other s ex executor ok ev hex]
          exact habs

/-- `BufferAllocation::Slice`: the logical identity of a buffer slice. -/
abbrev Slice := Nat

/-- A device address (`se::DeviceMemoryBase`). -/
abbrev DeviceAddress := Nat

/-- `BufferAllocations`, reduced to the only operation used here:
`GetDeviceAddress(slice)`. -/
abbrev BufferAllocations := Slice → DeviceAddress

/-- `NcclApi::NcclCommHandle`: a communicator handle. -/
abbrev NcclCommHandle := Nat

/-- `NcclApi::NcclRegisteredBufferHandle`. -/
abbrev NcclRegisteredBufferHandle := Nat

/-- `kCollectiveMemorySpaceColor` from `nccl_collective_thunk.cc`. -/
def kCollectiveMemorySpaceColor : Int := 1

/-- `NcclCollectiveThunk::Buffer`: the fields read by
`ConvertToDeviceBuffers`. -/
structure NcclCollectiveThunk.Buffer where
  element_count : Int
  source_buffer : Slice
  destination_buffer : Slice
  source_memory_space : Int
  destination_memory_space : Int
  deriving DecidableEq, Repr

/-- `DeviceBufferPair` from `nccl_api.h` as used here: element type,
element count, resolved source/destination addresses, and
source/destination memory-space tags. -/
structure DeviceBufferPair where
  element_type : PrimitiveType
  element_count : Int
  source_buffer : DeviceAddress
  destination_buffer : DeviceAddress
  source_memory_space : Int
  destination_memory_space : Int
  deriving DecidableEq, Repr

/-- `ConvertToDeviceBuffers` from `nccl_collective_thunk.cc`: fails when
the buffer and element-type lists disagree in length, otherwise builds
one `DeviceBufferPair` per operand, in order. -/
def ConvertToDeviceBuffers (buffer_allocations : BufferAllocations)
    (buffers : List NcclCollectiveThunk.Buffer)
    (element_types : List PrimitiveType) :
    Except ErrorCode (List DeviceBufferPair) :=
  if buffers.length ≠ element_types.length then
    .error (.FailedPrecondition "Mismatch in operand buffer counts.")
  else
    .ok (List.zipWith
      (fun t b => DeviceBufferPair.mk t b.element_count
        (buffer_allocations b.source_buffer)
        (buffer_allocations b.destination_buffer)
        b.source_memory_space b.destination_memory_space)
      element_types buffers)

/-- The process-wide `RegisteredBuffers` table of `MaybeRegisterBuffers`:
which (device ordinal, communicator) pairs have been registered for, and
the accumulated registration handles. -/
structure RegisteredBuffers where
  per_device_comms : List (Int × NcclCommHandle)
  handles : List NcclRegisteredBufferHandle
  deriving DecidableEq, Repr

/-- `per_device_comms[device_ordinal].insert(comm)`: hash-set insert is a
no-op when the pair is already present. -/
def RegisteredBuffers.insertComm (st : RegisteredBuffers) (d : Int)
    (c : NcclCommHandle) : RegisteredBuffers :=
  if (d, c) ∈ st.per_device_comms then st
  else ⟨st.per_device_comms ++ [(d, c)], st.handles⟩

/-- The oracle for `nccl_api->RegisterBuffer(comm, buffer)`. -/
abbrev RegisterBufferFn :=
  NcclCommHandle → DeviceAddress → Except ErrorCode NcclRegisteredBufferHandle

/-- One of the two memory-space-guarded registration blocks in the loop
body of `MaybeRegisterBuffers` (source or destination side of one
buffer). Returns the status, the updated table and how many times
`RegisterBuffer` was invoked. -/
def registerOneSide (register_buffer : RegisterBufferFn)
    (device_ordinal : Int) (comm : NcclCommHandle) (memory_space : Int)
    (addr : DeviceAddress) (st : RegisteredBuffers) :
    Status × RegisteredBuffers × Nat :=
  if memory_space == kCollectiveMemorySpaceColor then
    match register_buffer comm addr with
    | .error e => (.error e, st, 1)
    | .ok handle =>
        (.ok (),
          (RegisteredBuffers.mk st.per_device_comms
            (st.handles ++ [handle])).insertComm device_ordinal comm,
          1)
  else (.ok (), st, 0)

/-- One iteration of the loop in `MaybeRegisterBuffers`: skipped entirely
when the (device, comm) pair is already registered, otherwise the source
and then the destination side are processed (an error propagates out). -/
def registerOneBuffer (register_buffer : RegisterBufferFn)
    (device_ordinal : Int) (comm : NcclCommHandle)
    (buffer : DeviceBufferPair) (st : RegisteredBuffers) :
    Status × RegisteredBuffers × Nat :=
  if (device_ordinal, comm) ∈ st.per_device_comms then (.ok (), st, 0)
  else
    match registerOneSide register_buffer device_ordinal comm
        buffer.source_memory_space buffer.source_buffer st with
    | (.error e, st1, n1) => (.error e, st1, n1)
    | (.ok _, st1, n1) =>
        match registerOneSide register_buffer device_ordinal comm
            buffer.destination_memory_space buffer.destination_buffer st1 with
        | (.error e, st2, n2) => (.error e, st2, n1 + n2)
        | (.ok _, st2, n2) => (.ok (), st2, n1 + n2)

/-- `MaybeRegisterBuffers` from `nccl_collective_thunk.cc`, as a function
of the process-wide table: iterates over the buffers, registering
collective-memory-space buffers for a (device, comm) pair not yet in the
table; an error from `RegisterBuffer` returns immediately. The third
component counts `RegisterBuffer` invocations. -/
def MaybeRegisterBuffers (register_buffer : RegisterBufferFn)
    (device_ordinal : Int) (buffers : List DeviceBufferPair)
    (comm : NcclCommHandle) (st : RegisteredBuffers) :
    Status × RegisteredBuffers × Nat :=
  match buffers with
  | [] => (.ok (), st, 0)
  | buffer :: rest =>
      match registerOneBuffer register_buffer device_ordinal comm buffer
          st with
      | (.error e, st1, n1) => (.error e, st1, n1)
      | (.ok _, st1, n1) =>
          let (r, st2, n2) :=
            MaybeRegisterBuffers register_buffer device_ordinal rest comm st1
          (r, st2, n1 + n2)

/-- `GlobalDeviceId`: opaque integer identity of a device across the
job. -/
abbrev GlobalDeviceId := Int

/-- `NcclComm::Lock`: the acquired communicator (its identity). -/
abbrev CommLock := Nat

/-- `NcclCliqueKey`: the participant list plus the logical stream id. -/
structure NcclCliqueKey where
  devices : List GlobalDeviceId
  stream_id : Int
  deriving DecidableEq, Repr

/-- Modelled from the spec: `NcclCliqueKey::rank(id)` (defined in
`nccl_clique_key.cc`, outside the provided sources) — the zero-based
position of the device within the participant set's canonical ordering,
empty when the device is not a participant. -/
def NcclCliqueKey.rank (k : NcclCliqueKey) (id : GlobalDeviceId) :
    Option Nat :=
  k.devices.indexOf? id

/-- The message of the `InvalidArgument` error raised by the global
NCCL-config participant-count check. -/
def kPartialReplicaGroupsMsg : String :=
  "Partial replica groups are not allowed when using NCCL_COMM_ID environment configuration."

/-- `GetNcclComm` from `nccl_collective_thunk.cc`. Oracles:
`is_global_nccl_config` for `IsGlobalNcclConfig()` (environment state,
outside the provided sources), `participants_result` for
`GetParticipatingDevices(...)` (outside the provided sources), `get_comm`
for `collective_cliques.GetComm`. The returned Bool records whether a
communicator acquisition was performed; the outer `Option` is `none` when
the unchecked dereference `*rank` hits an empty optional (undefined
behavior in the C++). -/
def GetNcclComm (is_global_nccl_config : Bool) (replica_count : Nat)
    (participants_result : Except ErrorCode (List GlobalDeviceId))
    (global_device_id : GlobalDeviceId) (stream_id : Int)
    (get_comm : NcclCliqueKey → Nat → Except ErrorCode CommLock) :
    Option (Except ErrorCode CommLock × Bool) :=
  match participants_result with
  | .error e => some (.error e, false)
  | .ok participants =>
      if is_global_nccl_config && participants.length != replica_count then
        some (.error (.InvalidArgument kPartialReplicaGroupsMsg), false)
      else
        let clique_key := NcclCliqueKey.mk participants stream_id
        match clique_key.rank global_device_id with
        | none => none
        | some rank => some (get_comm clique_key rank, true)

/-- `LockNcclComm` from `nccl_collective_thunk.cc`. Oracles as in
`GetNcclComm`, plus `clique_id_callback_result` for
`GetNcclCliqueIdCallback` and `acquire_comm` for `AcquireNcclComm`
(both outside the provided sources; `acquire_comm` receives the
participants and the computed rank). The rank is established by an
explicit `absl::c_find` membership check guarded by `TF_RET_CHECK`. -/
def LockNcclComm (is_global_nccl_config : Bool) (replica_count : Nat)
    (participants_result : Except ErrorCode (List GlobalDeviceId))
    (global_device_id : GlobalDeviceId)
    (clique_id_callback_result : Except ErrorCode Unit)
    (acquire_comm : List GlobalDeviceId → Nat → Except ErrorCode CommLock) :
    Except ErrorCode CommLock × Bool :=
  match participants_result with
  | .error e => (.error e, false)
  | .ok participants =>
      if is_global_nccl_config && participants.length != replica_count then
        (.error (.InvalidArgument kPartialReplicaGroupsMsg), false)
      else
        match participants.indexOf? global_device_id with
        | none => (.error (.Internal "it != participants.end()"), false)
        | some rank =>
            match clique_id_callback_result with
            | .error e => (.error e, false)
            | .ok _ => (acquire_comm participants rank, true)

/-- The stream an operation is issued or blocked on: the main compute
stream (`params.stream`) or the dedicated async communication stream
(`params.async_comms_streams[...]`). -/
inductive StreamId where
  | main
  | asyncComms
  deriving DecidableEq, Repr

/-- Per-instance executor state read by `ExecuteOnStream`: the
`first_call_to_execute_` flag (true on a fresh thunk). -/
structure ExecState where
  first_call_to_execute : Bool
  deriving DecidableEq, Repr

/-- Oracle for the fallible sub-steps of one `ExecuteOnStream` call:
whether `GetNcclComm`, `RunNcclCollective`, `AsyncEvents::GetEvent` and
`BlockHostUntilDone` succeed in this invocation. -/
structure ExecOutcome where
  get_comm_ok : Bool
  run_collective_ok : Bool
  get_event_ok : Bool
  block_ok : Bool
  deriving DecidableEq, Repr

/-- Control flow of `NcclCollectiveThunk::ExecuteOnStream`: acquire the
communicator, run the collective (on the async stream after a wait for
the main stream when asynchronous, recording the completion event;
directly on the main stream when synchronous), then — only when
`first_call_to_execute_` is still set — block the host on the issuing
stream and clear the flag. The third component reports the stream on
which `BlockHostUntilDone` was performed (`none` if it was not). -/
def NcclCollectiveThunk.ExecuteOnStream (is_async : Bool) (o : ExecOutcome)
    (st : ExecState) : Status × ExecState × Option StreamId :=
  if !o.get_comm_ok then
    (.error (.Other "GetNcclComm failed"), st, none)
  else if !o.run_collective_ok then
    (.error (.Other "RunNcclCollective failed"), st, none)
  else if is_async && !o.get_event_ok then
    (.error (.Internal
      "Collective operation async completion event not initialized"),
      st, none)
  else if st.first_call_to_execute then
    let stream := if is_async then StreamId.asyncComms else StreamId.main
    if !o.block_ok then
      (.error (.Other "BlockHostUntilDone failed"), st, some stream)
    else
      (.ok (), ExecState.mk false, some stream)
  else
    (.ok (), st, none)

/-- Run a sequence of `ExecuteOnStream` invocations against one thunk
instance, collecting each call's status and host-block report. -/
def runExecuteOnStream (is_async : Bool) (st : ExecState) :
    List ExecOutcome → List (Status × Option StreamId) × ExecState
  | [] => ([], st)
  | o :: os =>
      let step := NcclCollectiveThunk.ExecuteOnStream is_async o st
      let rest := runExecuteOnStream is_async step.2.1 os
      ((step.1, step.2.2) :: rest.1, rest.2)

end XlaGpu

namespace XlaGpu

/-- C1: for every replica/partition count and every group mode,
`NcclCollectiveConfig::IsDegenerate` returns `true` exactly as the spec's
enumerated table prescribes: CrossReplica iff all groups are singleton or
(groups empty and replica_count = 1); CrossPartition iff all groups are
singleton or (groups empty and partition_count = 1);
CrossReplicaAndPartition iff (all groups singleton and partition_count = 1)
or (groups empty and replica_count = 1 and partition_count = 1);
FlattenedID (under the non-empty-groups precondition) iff all groups are
singleton. -/
theorem IsDegenerate_matches_spec_table (c : NcclCollectiveConfig)
    (rc pc : Int) :
    (c.group_mode = .kCrossReplica →
      (c.IsDegenerate rc pc = some true ↔
        AllGroupsSingleton c ∨ (c.replica_groups = [] ∧ rc = 1))) ∧
    (c.group_mode = .kCrossPartition →
      (c.IsDegenerate rc pc = some true ↔
        AllGroupsSingleton c ∨ (c.replica_groups = [] ∧ pc = 1))) ∧
    (c.group_mode = .kCrossReplicaAndPartition →
      (c.IsDegenerate rc pc = some true ↔
        (AllGroupsSingleton c ∧ pc = 1) ∨
          (c.replica_groups = [] ∧ rc = 1 ∧ pc = 1))) ∧
    (c.group_mode = .kFlattenedID → c.replica_groups ≠ [] →
      (c.IsDegenerate rc pc = some true ↔ AllGroupsSingleton c)) := by
  obtain ⟨groups, mode⟩ := c
  cases mode <;>
    simp [NcclCollectiveConfig.IsDegenerate, AllGroupsSingleton,
      ReplicaGroup.replica_ids_size, List.isEmpty_iff, List.all_eq_true] <;>
    cases groups <;> simp_all

/-- C1 witness: the spec's scenario — four singleton groups in CrossReplica
mode with replica_count = 4, partition_count = 1 are degenerate. -/
theorem IsDegenerate_matches_spec_table_witness :
    (NcclCollectiveConfig.mk [⟨[0]⟩, ⟨[1]⟩, ⟨[2]⟩, ⟨[3]⟩]
      .kCrossReplica).IsDegenerate 4 1 = some true :=
  ((IsDegenerate_matches_spec_table
    (NcclCollectiveConfig.mk [⟨[0]⟩, ⟨[1]⟩, ⟨[2]⟩, ⟨[3]⟩] .kCrossReplica)
    4 1).1 rfl).mpr (Or.inl (by decide))

/-- C7: in FlattenedID mode the degeneracy check dies on the
`CHECK(!groups_empty)` assertion (modelled as `none`) exactly when the
replica groups are empty; with non-empty groups the assertion never
fires and a boolean answer is produced. -/
theorem IsDegenerate_flattened_id_check (c : NcclCollectiveConfig)
    (rc pc : Int) (hm : c.group_mode = .kFlattenedID) :
    (c.IsDegenerate rc pc = none ↔ c.replica_groups = []) ∧
    (c.replica_groups ≠ [] → (c.IsDegenerate rc pc).isSome) := by
  obtain ⟨groups, mode⟩ := c
  subst hm
  cases groups <;>
    simp [NcclCollectiveConfig.IsDegenerate, List.isEmpty_iff]

/-- C7 witness: FlattenedID with empty groups crashes the check;
with singleton groups it does not. -/
theorem IsDegenerate_flattened_id_check_witness :
    (NcclCollectiveConfig.mk [] .kFlattenedID).IsDegenerate 2 1 = none ∧
    ((NcclCollectiveConfig.mk [⟨[0]⟩, ⟨[1]⟩]
      .kFlattenedID).IsDegenerate 2 1).isSome := by
  refine ⟨?_, ?_⟩
  · exact (IsDegenerate_flattened_id_check
      (NcclCollectiveConfig.mk [] .kFlattenedID) 2 1 rfl).1.mpr rfl
  · exact (IsDegenerate_flattened_id_check
      (NcclCollectiveConfig.mk [⟨[0]⟩, ⟨[1]⟩] .kFlattenedID) 2 1 rfl).2
      (by decide)

/-- C2: `IsValidOperand` returns Ok iff the shape is a dense array and the
element type is supported by the transport for the operation kind; for the
narrow types S16, U16, F8E5M2, F8E4M3FN (on a dense shape) it returns Ok
exactly when the kind is not a reduction collective; and for element types
outside the supported list it errors regardless of operation kind. -/
theorem IsValidOperand_characterization (s : Shape) (op : Thunk.Kind) :
    (IsValidOperand s op = .ok () ↔
      LayoutUtil.IsDenseArray s = true ∧
        IsTypeSupportedByNccl s.element_type op = true) ∧
    (s.element_type ∈ [PrimitiveType.S16, .U16, .F8E5M2, .F8E4M3FN] →
      s.dense_array = true →
      (IsValidOperand s op = .ok () ↔ IsReductionCollective op = false)) ∧
    (s.element_type ∉ NcclSupportedTypes →
      IsValidOperand s op ≠ .ok ()) := by
  obtain ⟨t, d⟩ := s
  revert op
  cases t <;> cases d <;> decide

/-- C2 witness: an S16 all-reduce operand is rejected even when dense. -/
theorem IsValidOperand_characterization_witness :
    IsValidOperand ⟨.S16, true⟩ .kNcclAllReduce ≠ .ok () := by
  intro h
  have hiff := (IsValidOperand_characterization ⟨.S16, true⟩
    .kNcclAllReduce).2.1 (by decide) rfl
  exact absurd (hiff.mp h) (by decide)

/-- After a successful `Initialize` for `ex`, the map holds an event for
`ex`. -/
theorem AsyncEvents.initialize_ok_mem (s : AsyncEvents) (ex : StreamExecutor)
    (ok : Bool) (ev : Event) (s₁ : AsyncEvents)
    (h : s.Initialize ex ok ev = (.ok (), s₁)) :
    (s₁.find? ex).isSome := by
  unfold AsyncEvents.Initialize at h
  by_cases h1 : (s.find? ex).isSome
  · simp only [h1, if_pos, Prod.mk.injEq, true_and] at h
    rw [← h]
    exact h1
  · by_cases h2 : ok
    · simp only [h1, h2, Bool.not_true, if_neg, if_false,
        Bool.false_eq_true, not_false_eq_true, Prod.mk.injEq, true_and] at h
      rw [← h]
      have hnone : s.events.find? (fun p => p.1 == ex) = none := by
        simp only [AsyncEvents.find?, Option.isSome_map] at h1
        exact Option.not_isSome_iff_eq_none.mp (by simpa using h1)
      simp [AsyncEvents.find?, List.find?_append, hnone]
    · simp [h1, h2] at h

/-- C3: `GetEvent` on a context for which no `Initialize` call has
succeeded returns an `Internal` error and leaves the event map untouched,
and `NcclCollectiveDoneThunk::ExecuteOnStream` on such a context fails
with that `Internal` error without issuing any wait on the stream. -/
theorem GetEvent_before_Initialize_internal (ops : List AsyncEventsOp)
    (ex : StreamExecutor)
    (h : ¬ (AsyncEvents.mk []).InitializeSucceededFor ex ops) :
    ((AsyncEvents.mk []).run ops).GetEvent ex =
      (.error (.Internal
          "Collective operation async completion event not initialized"),
        (AsyncEvents.mk []).run ops) ∧
    NcclCollectiveDoneThunk.ExecuteOnStream ((AsyncEvents.mk []).run ops)
        ex =
      (.error (.Internal
          "Collective operation async completion event not initialized"),
        []) := by
  have habs : ((AsyncEvents.mk []).run ops).find? ex = none :=
    AsyncEvents.find?_run_of_no_init _ ex ops (by simp [AsyncEvents.find?]) h
  refine ⟨?_, ?_⟩
  · simp [AsyncEvents.GetEvent, habs]
  · simp [NcclCollectiveDoneThunk.ExecuteOnStream, AsyncEvents.GetEvent,
      habs]

/-- C3 witness: with only a `GetEvent` call in the history, a `GetEvent`
on executor 1 fails with `Internal` and the done-thunk issues no wait. -/
theorem GetEvent_before_Initialize_internal_witness :
    NcclCollectiveDoneThunk.ExecuteOnStream
        ((AsyncEvents.mk []).run [.getCall 0]) 1 =
      (.error (.Internal
          "Collective operation async completion event not initialized"),
        []) :=
  (GetEvent_before_Initialize_internal [.getCall 0] 1
    (by simp [AsyncEvents.InitializeSucceededFor])).2

/-- C4: `AsyncEvents::Initialize` is idempotent per executor: after a
successful call producing state `s₁`, a second call for the same executor
returns Ok with the state unchanged (no new event is created), so
`GetEvent` returns the same event before and after the second call. -/
theorem Initialize_idempotent (s : AsyncEvents) (ex : StreamExecutor)
    (ok1 ok2 : Bool) (ev1 ev2 : Event) (s₁ : AsyncEvents)
    (h : s.Initialize ex ok1 ev1 = (.ok (), s₁)) :
    s₁.Initialize ex ok2 ev2 = (.ok (), s₁) ∧
    ((s₁.Initialize ex ok2 ev2).2).GetEvent ex = s₁.GetEvent ex := by
  have hsome : (s₁.find? ex).isSome :=
    AsyncEvents.initialize_ok_mem s ex ok1 ev1 s₁ h
  have hsecond : s₁.Initialize ex ok2 ev2 = (.ok (), s₁) := by
    unfold AsyncEvents.Initialize
    simp [hsome]
  exact ⟨hsecond, by rw [hsecond]⟩

/-- A hash-set insert makes the pair a member. -/
theorem RegisteredBuffers.insertComm_mem_self (st : RegisteredBuffers)
    (d : Int) (c : NcclCommHandle) :
    (d, c) ∈ (st.insertComm d c).per_device_comms := by
  unfold RegisteredBuffers.insertComm
  split
  · assumption
  · simp

/-- A hash-set insert removes nothing. -/
theorem RegisteredBuffers.insertComm_mono (st : RegisteredBuffers)
    (d : Int) (c : NcclCommHandle) (p : Int × NcclCommHandle)
    (hp : p ∈ st.per_device_comms) :
    p ∈ (st.insertComm d c).per_device_comms := by
  unfold RegisteredBuffers.insertComm
  split
  · exact hp
  · simp [hp]

/-- One registration side removes nothing from the table. -/
theorem registerOneSide_mono (rb : RegisterBufferFn) (d : Int)
    (comm : NcclCommHandle) (space : Int) (addr : DeviceAddress)
    (st : RegisteredBuffers) (p : Int × NcclCommHandle)
    (hp : p ∈ st.per_device_comms) :
    p ∈ ((registerOneSide rb d comm space addr st).2.1).per_device_comms := by
  unfold registerOneSide
  by_cases hs : (space == kCollectiveMemorySpaceColor) = true
  · rw [if_pos hs]
    cases hrb : rb comm addr with
    | error e => exact hp
    | ok handle => exact RegisteredBuffers.insertComm_mono _ d comm p hp
  · rw [if_neg hs]
    exact hp

/-- A registration side that reports Ok after invoking `RegisterBuffer`
has inserted the (device, comm) pair. -/
theorem registerOneSide_ok_mem (rb : RegisterBufferFn) (d : Int)
    (comm : NcclCommHandle) (space : Int) (addr : DeviceAddress)
    (st st' : RegisteredBuffers) (n : Nat)
    (h : registerOneSide rb d comm space addr st = (.ok (), st', n))
    (hn : 1 ≤ n) :
    (d, comm) ∈ st'.per_device_comms := by
  unfold registerOneSide at h
  by_cases hs : (space == kCollectiveMemorySpaceColor) = true
  · rw [if_pos hs] at h
    split at h
    next e heq => exact absurd (congrArg Prod.fst h) (by simp)
    next handle heq =>
        have hst : _ = st' := congrArg (fun z => z.2.1) h
        exact hst ▸ RegisteredBuffers.insertComm_mem_self _ d comm
  · rw [if_neg hs] at h
    have hzero : (0 : Nat) = n := congrArg (fun z => z.2.2) h
    omega

/-- One loop iteration removes nothing from the table. -/
theorem registerOneBuffer_mono (rb : RegisterBufferFn) (d : Int)
    (comm : NcclCommHandle) (b : DeviceBufferPair)
    (st : RegisteredBuffers) (p : Int × NcclCommHandle)
    (hp : p ∈ st.per_device_comms) :
    p ∈ ((registerOneBuffer rb d comm b st).2.1).per_device_comms := by
  unfold registerOneBuffer
  split
  · exact hp
  · split
    next e st1 n1 h1 =>
        have hx := registerOneSide_mono rb d comm b.source_memory_space
          b.source_buffer st p hp
        rw [h1] at hx
        exact hx
    next u st1 n1 h1 =>
        have hm1 : p ∈ st1.per_device_comms := by
          have hx := registerOneSide_mono rb d comm b.source_memory_space
            b.source_buffer st p hp
          rw [h1] at hx
          exact hx
        split
        next e st2 n2 h2 =>
            have hx := registerOneSide_mono rb d comm
              b.destination_memory_space b.destination_buffer st1 p hm1
            rw [h2] at hx
            exact hx
        next v st2 n2 h2 =>
            have hx := registerOneSide_mono rb d comm
              b.destination_memory_space b.destination_buffer st1 p hm1
            rw [h2] at hx
            exact hx

/-- One loop iteration that reports Ok after invoking `RegisterBuffer` at
least once leaves the (device, comm) pair in the table. -/
theorem registerOneBuffer_ok_mem (rb : RegisterBufferFn) (d : Int)
    (comm : NcclCommHandle) (b : DeviceBufferPair)
    (st st' : RegisteredBuffers) (u : Unit) (n : Nat)
    (h : registerOneBuffer rb d comm b st = (.ok u, st', n))
    (hn : 1 ≤ n) :
    (d, comm) ∈ st'.per_device_comms := by
  cases u
  unfold registerOneBuffer at h
  by_cases hmem : (d, comm) ∈ st.per_device_comms
  · rw [if_pos hmem] at h
    have hst : st = st' := congrArg (fun z => z.2.1) h
    exact hst ▸ hmem
  · rw [if_neg hmem] at h
    split at h
    next e st1 n1 h1 => exact absurd (congrArg Prod.fst h) (by simp)
    next v st1 n1 h1 =>
        cases v
        split at h
        next e st2 n2 h2 => exact absurd (congrArg Prod.fst h) (by simp)
        next w st2 n2 h2 =>
            cases w
            have hst : st2 = st' := congrArg (fun z => z.2.1) h
            have hcount : n1 + n2 = n := congrArg (fun z => z.2.2) h
            by_cases hn2 : 1 ≤ n2
            · exact hst ▸ registerOneSide_ok_mem rb d comm
                b.destination_memory_space b.destination_buffer st1 st2 n2
                h2 hn2
            · have hn1 : 1 ≤ n1 := by omega
              have hm1 : (d, comm) ∈ st1.per_device_comms :=
                registerOneSide_ok_mem rb d comm b.source_memory_space
                  b.source_buffer st st1 n1 h1 hn1
              have hx := registerOneSide_mono rb d comm
                b.destination_memory_space b.destination_buffer st1
                (d, comm) hm1
              rw [h2] at hx
              exact hst ▸ hx

/-- A full `MaybeRegisterBuffers` call removes nothing from the table. -/
theorem MaybeRegisterBuffers_mono (rb : RegisterBufferFn) (d : Int)
    (buffers : List DeviceBufferPair) (comm : NcclCommHandle)
    (st : RegisteredBuffers) (p : Int × NcclCommHandle)
    (hp : p ∈ st.per_device_comms) :
    p ∈ ((MaybeRegisterBuffers rb d buffers comm st).2.1).per_device_comms := by
  induction buffers generalizing st with
  | nil => exact hp
  | cons b rest ih =>
      simp only [MaybeRegisterBuffers]
      split
      next e st1 n1 h1 =>
          have hx := registerOneBuffer_mono rb d comm b st p hp
          rw [h1] at hx
          exact hx
      next u st1 n1 h1 =>
          have hm1 : p ∈ st1.per_device_comms := by
            have hx := registerOneBuffer_mono rb d comm b st p hp
            rw [h1] at hx
            exact hx
          have hx := ih st1 hm1
          rcases h2 : MaybeRegisterBuffers rb d rest comm st1 with ⟨r2, st2, n2⟩
          rw [h2] at hx
          exact hx

/-- With the (device, comm) pair already in the table, the whole loop is
skipped: Ok, zero `RegisterBuffer` calls, table unchanged. -/
theorem MaybeRegisterBuffers_skip (rb : RegisterBufferFn) (d : Int)
    (buffers : List DeviceBufferPair) (comm : NcclCommHandle)
    (st : RegisteredBuffers) (hmem : (d, comm) ∈ st.per_device_comms) :
    MaybeRegisterBuffers rb d buffers comm st = (.ok (), st, 0) := by
  induction buffers with
  | nil => rfl
  | cons b rest ih =>
      have hstep : registerOneBuffer rb d comm b st = (.ok (), st, 0) := by
        unfold registerOneBuffer
        rw [if_pos hmem]
      simp only [MaybeRegisterBuffers, hstep, ih]

/-- A successful `MaybeRegisterBuffers` call that invoked `RegisterBuffer`
at least once leaves the (device, comm) pair in the table. -/
theorem MaybeRegisterBuffers_ok_mem (rb : RegisterBufferFn) (d : Int)
    (buffers : List DeviceBufferPair) (comm : NcclCommHandle)
    (st st₁ : RegisteredBuffers) (n : Nat)
    (h : MaybeRegisterBuffers rb d buffers comm st = (.ok (), st₁, n))
    (hn : 1 ≤ n) :
    (d, comm) ∈ st₁.per_device_comms := by
  induction buffers generalizing st n with
  | nil =>
      have hzero : (0 : Nat) = n := congrArg (fun z => z.2.2) h
      omega
  | cons b rest ih =>
      rw [show MaybeRegisterBuffers rb d (b :: rest) comm st =
          (match registerOneBuffer rb d comm b st with
           | (.error e, st1, n1) => (.error e, st1, n1)
           | (.ok _, st1, n1) =>
               let (r, st2, n2) := MaybeRegisterBuffers rb d rest comm st1
               (r, st2, n1 + n2)) from rfl] at h
      split at h
      next e st1 n1 h1 => exact absurd (congrArg Prod.fst h) (by simp)
      next u st1 n1 h1 =>
          rcases h2 : MaybeRegisterBuffers rb d rest comm st1 with ⟨r2, st2, n2⟩
          rw [h2] at h
          have hr : r2 = Except.ok () := congrArg Prod.fst h
          have hst : st2 = st₁ := congrArg (fun z => z.2.1) h
          have hcount : n1 + n2 = n := congrArg (fun z => z.2.2) h
          by_cases hn2 : 1 ≤ n2
          · exact ih st1 n2 (by rw [h2, hr, hst]) hn2
          · have hn1 : 1 ≤ n1 := by omega
            have hm1 : (d, comm) ∈ st1.per_device_comms :=
              registerOneBuffer_ok_mem rb d comm b st st1 u n1 h1 hn1
            have hx := MaybeRegisterBuffers_mono rb d rest comm st1
              (d, comm) hm1
            rw [h2] at hx
            exact hst ▸ hx


/-- C5: `MaybeRegisterBuffers` memoizes per (device ordinal, communicator)
pair: after a call that returned Ok having performed at least one
registration, a second call for the same device and communicator (with
any buffer list and any `RegisterBuffer` oracle) invokes `RegisterBuffer`
zero times, returns Ok, and leaves the table unchanged; moreover no call
ever removes an entry from the memoization table. -/
theorem MaybeRegisterBuffers_memoized (rb rb2 : RegisterBufferFn)
    (device_ordinal : Int) (comm : NcclCommHandle)
    (buffers buffers2 : List DeviceBufferPair)
    (st st₁ : RegisteredBuffers) (n : Nat)
    (h : MaybeRegisterBuffers rb device_ordinal buffers comm st =
      (.ok (), st₁, n))
    (hn : 1 ≤ n) :
    MaybeRegisterBuffers rb2 device_ordinal buffers2 comm st₁ =
      (.ok (), st₁, 0) ∧
    (∀ (rb3 : RegisterBufferFn) (bufs3 : List DeviceBufferPair)
        (st3 : RegisteredBuffers) (p : Int × NcclCommHandle),
      p ∈ st3.per_device_comms →
      p ∈ ((MaybeRegisterBuffers rb3 device_ordinal bufs3 comm
        st3).2.1).per_device_comms) := by
  have hmem : (device_ordinal, comm) ∈ st₁.per_device_comms :=
    MaybeRegisterBuffers_ok_mem rb device_ordinal buffers comm st st₁ n h hn
  exact ⟨MaybeRegisterBuffers_skip rb2 device_ordinal buffers2 comm st₁ hmem,
    fun rb3 bufs3 st3 p hp =>
      MaybeRegisterBuffers_mono rb3 device_ordinal bufs3 comm st3 p hp⟩

/-- C5 witness: a first call from the empty table registers one
collective-memory-space source buffer; the repeat call (given an oracle
that would fail if ever invoked) is a no-op returning Ok. -/
theorem MaybeRegisterBuffers_memoized_witness :
    MaybeRegisterBuffers (fun _ _ => .error (.Other "no call expected"))
      0 [⟨.F32, 3, 10, 11, 1, 0⟩] 7 (RegisteredBuffers.mk [(0, 7)] [60]) =
      (.ok (), RegisteredBuffers.mk [(0, 7)] [60], 0) :=
  (MaybeRegisterBuffers_memoized (fun _ a => .ok (a + 50))
    (fun _ _ => .error (.Other "no call expected")) 0 7
    [⟨.F32, 3, 10, 11, 1, 0⟩] [⟨.F32, 3, 10, 11, 1, 0⟩]
    (RegisteredBuffers.mk [] []) (RegisteredBuffers.mk [(0, 7)] [60]) 1
    (by decide) (by decide)).1

/-- C10: `ConvertToDeviceBuffers` returns a `FailedPrecondition` error iff
the buffer list and the element-type list have different lengths;
otherwise it returns a vector of the same length whose i-th entry carries
`element_types[i]`, the i-th buffer's element count, the resolved source
and destination addresses, and the source/destination memory-space tags,
in input order. -/
theorem ConvertToDeviceBuffers_characterization
    (buffer_allocations : BufferAllocations)
    (buffers : List NcclCollectiveThunk.Buffer)
    (element_types : List PrimitiveType) :
    ((∃ msg, ConvertToDeviceBuffers buffer_allocations buffers
        element_types = .error (.FailedPrecondition msg)) ↔
      buffers.length ≠ element_types.length) ∧
    (∀ dbs, ConvertToDeviceBuffers buffer_allocations buffers
        element_types = .ok dbs →
      dbs.length = buffers.length ∧
      ∀ i (h1 : i < buffers.length) (h2 : i < element_types.length)
          (h3 : i < dbs.length),
        dbs.get ⟨i, h3⟩ = DeviceBufferPair.mk
          (element_types.get ⟨i, h2⟩)
          ((buffers.get ⟨i, h1⟩).element_count)
          (buffer_allocations ((buffers.get ⟨i, h1⟩).source_buffer))
          (buffer_allocations ((buffers.get ⟨i, h1⟩).destination_buffer))
          ((buffers.get ⟨i, h1⟩).source_memory_space)
          ((buffers.get ⟨i, h1⟩).destination_memory_space)) := by
  unfold ConvertToDeviceBuffers
  by_cases hlen : buffers.length = element_types.length
  · rw [if_neg (by simpa using hlen)]
    refine ⟨⟨fun ⟨msg, hc⟩ => Except.noConfusion hc, fun hc => absurd hlen hc⟩,
      fun dbs hdbs => ?_⟩
    have hd : dbs = List.zipWith _ element_types buffers := (Except.ok.inj hdbs).symm
    subst hd
    refine ⟨by simp [List.length_zipWith, hlen], fun i h1 h2 h3 => ?_⟩
    simp [List.getElem_zipWith]
  · rw [if_pos hlen]
    exact ⟨⟨fun _ => hlen, fun _ => ⟨"Mismatch in operand buffer counts.", rfl⟩⟩,
      fun dbs hdbs => Except.noConfusion hdbs⟩

/-- C10 witness: one buffer against an empty type list fails the length
check with `FailedPrecondition`. -/
theorem ConvertToDeviceBuffers_characterization_witness :
    ∃ msg, ConvertToDeviceBuffers (fun s => s + 100) [⟨3, 1, 2, 0, 1⟩] [] =
      .error (.FailedPrecondition msg) :=
  (ConvertToDeviceBuffers_characterization (fun s => s + 100)
    [⟨3, 1, 2, 0, 1⟩] []).1.mpr (by decide)

/-- C4 witness: initializing executor 0 twice from the empty map returns
Ok both times and keeps the single event created by the first call. -/
theorem Initialize_idempotent_witness :
    (AsyncEvents.mk [(0, 5)]).Initialize 0 true 6 =
      (.ok (), AsyncEvents.mk [(0, 5)]) ∧
    (((AsyncEvents.mk [(0, 5)]).Initialize 0 true 6).2).GetEvent 0 =
      (AsyncEvents.mk [(0, 5)]).GetEvent 0 :=
  Initialize_idempotent (AsyncEvents.mk []) 0 true true 5 6
    (AsyncEvents.mk [(0, 5)]) (by decide)

/-- An invocation on an instance whose first-call flag is cleared never
blocks the host and leaves the state unchanged. -/
theorem ExecuteOnStream_no_block_after_first (is_async : Bool)
    (o : ExecOutcome) (st : ExecState)
    (hflag : st.first_call_to_execute = false) :
    (NcclCollectiveThunk.ExecuteOnStream is_async o st).2.1 = st ∧
    (NcclCollectiveThunk.ExecuteOnStream is_async o st).2.2 = none := by
  unfold NcclCollectiveThunk.ExecuteOnStream
  simp only [hflag]
  split_ifs <;> simp_all

/-- A completing invocation clears the first-call flag. -/
theorem ExecuteOnStream_ok_clears_flag (is_async : Bool) (o : ExecOutcome)
    (st : ExecState)
    (hok : (NcclCollectiveThunk.ExecuteOnStream is_async o st).1 = .ok ()) :
    ((NcclCollectiveThunk.ExecuteOnStream is_async o st).2.1
      ).first_call_to_execute = false := by
  unfold NcclCollectiveThunk.ExecuteOnStream at *
  split_ifs at hok ⊢ <;> simp_all

/-- A non-completing invocation leaves the state unchanged. -/
theorem ExecuteOnStream_failed_state (is_async : Bool) (o : ExecOutcome)
    (st : ExecState)
    (hfail : (NcclCollectiveThunk.ExecuteOnStream is_async o st).1 ≠ .ok ()) :
    (NcclCollectiveThunk.ExecuteOnStream is_async o st).2.1 = st := by
  unfold NcclCollectiveThunk.ExecuteOnStream at *
  split_ifs at hfail ⊢ <;> simp_all

/-- On a first-call instance, a completing invocation blocks the host on
the issuing stream. -/
theorem ExecuteOnStream_first_ok_blocks (is_async : Bool) (o : ExecOutcome)
    (st : ExecState) (hflag : st.first_call_to_execute = true)
    (hok : (NcclCollectiveThunk.ExecuteOnStream is_async o st).1 = .ok ()) :
    (NcclCollectiveThunk.ExecuteOnStream is_async o st).2.2 =
      some (if is_async then StreamId.asyncComms else StreamId.main) := by
  unfold NcclCollectiveThunk.ExecuteOnStream at *
  split_ifs at hok ⊢ <;> simp_all

/-- Once the first-call flag is cleared, no invocation in any subsequent
run blocks the host. -/
theorem runExecuteOnStream_no_block (is_async : Bool)
    (os : List ExecOutcome) (st : ExecState)
    (hflag : st.first_call_to_execute = false) :
    ∀ r ∈ (runExecuteOnStream is_async st os).1, r.2 = none := by
  induction os generalizing st with
  | nil => intro r hr; simp [runExecuteOnStream] at hr
  | cons o os ih =>
      intro r hr
      rw [runExecuteOnStream] at hr
      obtain ⟨hst, hnone⟩ :=
        ExecuteOnStream_no_block_after_first is_async o st hflag
      rcases List.mem_cons.mp hr with hhead | htail
      · rw [hhead, hnone]
      · exact ih (NcclCollectiveThunk.ExecuteOnStream is_async o st).2.1
          (by rw [hst]; exact hflag) r htail

/-- A run in which no invocation completed leaves the first-call flag
as it was. -/
theorem runExecuteOnStream_flag_of_no_ok (is_async : Bool)
    (os : List ExecOutcome) (st : ExecState)
    (hnone : ∀ r ∈ (runExecuteOnStream is_async st os).1, r.1 ≠ .ok ()) :
    (runExecuteOnStream is_async st os).2 = st := by
  induction os generalizing st with
  | nil => rfl
  | cons o os ih =>
      rw [runExecuteOnStream] at hnone ⊢
      have hfail : (NcclCollectiveThunk.ExecuteOnStream is_async o st).1 ≠
          .ok () :=
        hnone _ (List.mem_cons_self _ _)
      have hst := ExecuteOnStream_failed_state is_async o st hfail
      rw [hst] at hnone ⊢
      exact ih st (fun r hr => hnone r (List.mem_cons_of_mem _ hr))

/-- C6: across any sequence of `ExecuteOnStream` invocations of one thunk
instance, the first invocation that reaches completion performs the
host-blocking `BlockHostUntilDone` on the issuing stream (the async
communication stream for asynchronous thunks, the main stream for
synchronous ones), and no invocation after a completing one ever performs
that host-blocking synchronization. -/
theorem ExecuteOnStream_first_call_block (is_async : Bool)
    (pre : List ExecOutcome) (o : ExecOutcome) (post : List ExecOutcome)
    (hok : (NcclCollectiveThunk.ExecuteOnStream is_async o
      (runExecuteOnStream is_async (ExecState.mk true) pre).2).1 = .ok ()) :
    ((∀ r ∈ (runExecuteOnStream is_async (ExecState.mk true) pre).1,
        r.1 ≠ .ok ()) →
      (NcclCollectiveThunk.ExecuteOnStream is_async o
        (runExecuteOnStream is_async (ExecState.mk true) pre).2).2.2 =
        some (if is_async then StreamId.asyncComms else StreamId.main)) ∧
    (∀ r ∈ (runExecuteOnStream is_async
        (NcclCollectiveThunk.ExecuteOnStream is_async o
          (runExecuteOnStream is_async (ExecState.mk true) pre).2).2.1
        post).1,
      r.2 = none) := by
  constructor
  · intro hpre
    have hflag : ((runExecuteOnStream is_async (ExecState.mk true) pre).2
        ).first_call_to_execute = true := by
      rw [runExecuteOnStream_flag_of_no_ok is_async pre _ hpre]
    exact ExecuteOnStream_first_ok_blocks is_async o _ hflag hok
  · exact runExecuteOnStream_no_block is_async post _
      (ExecuteOnStream_ok_clears_flag is_async o _ hok)

/-- C6 witness: a synchronous thunk whose first invocation succeeds blocks
the host on the main stream there, and a following successful invocation
does not block. -/
theorem ExecuteOnStream_first_call_block_witness :
    (NcclCollectiveThunk.ExecuteOnStream false ⟨true, true, true, true⟩
      (runExecuteOnStream false (ExecState.mk true) []).2).2.2 =
      some StreamId.main ∧
    ∀ r ∈ (runExecuteOnStream false
        (NcclCollectiveThunk.ExecuteOnStream false ⟨true, true, true, true⟩
          (runExecuteOnStream false (ExecState.mk true) []).2).2.1
        [⟨true, true, true, true⟩]).1,
      r.2 = none := by
  have h := ExecuteOnStream_first_call_block false [] ⟨true, true, true, true⟩
    [⟨true, true, true, true⟩] (by decide)
  refine ⟨?_, h.2⟩
  have h1 := h.1 (by intro r hr; simp [runExecuteOnStream] at hr)
  simpa using h1

/-- For a member of the list, `indexOf?` finds exactly the zero-based
position `indexOf`. -/
theorem indexOf?_eq_some_of_mem {α : Type} [DecidableEq α] {a : α}
    {l : List α} (h : a ∈ l) : l.indexOf? a = some (l.indexOf a) := by
  cases hio : l.indexOf? a with
  | none =>
      rw [List.indexOf?_eq_none_iff] at hio
      exact absurd (hio a h) (by simp)
  | some i =>
      have hx : l.indexOf a = i := by rw [List.indexOf_eq_indexOf?, hio]
      rw [hx]

/-- C8: with the global NCCL id configuration active and the resolved
participant count different from the device assignment's replica count,
`GetNcclComm` and `LockNcclComm` both return the partial-replica-groups
`InvalidArgument` error without acquiring a communicator; when the counts
match or the configuration is inactive, the check passes and each
function proceeds to its rank lookup and acquisition, raising no such
error itself. -/
theorem GlobalNcclConfig_participant_check (replica_count : Nat)
    (participants : List GlobalDeviceId) (gid : GlobalDeviceId)
    (stream_id : Int)
    (get_comm : NcclCliqueKey → Nat → Except ErrorCode CommLock)
    (cb : Except ErrorCode Unit)
    (acquire_comm : List GlobalDeviceId → Nat → Except ErrorCode CommLock) :
    (participants.length ≠ replica_count →
      GetNcclComm true replica_count (.ok participants) gid stream_id
          get_comm =
        some (.error (.InvalidArgument kPartialReplicaGroupsMsg), false) ∧
      LockNcclComm true replica_count (.ok participants) gid cb
          acquire_comm =
        (.error (.InvalidArgument kPartialReplicaGroupsMsg), false)) ∧
    (∀ is_global : Bool,
      is_global = false ∨ participants.length = replica_count →
      GetNcclComm is_global replica_count (.ok participants) gid stream_id
          get_comm =
        (match (NcclCliqueKey.mk participants stream_id).rank gid with
         | none => none
         | some rank =>
             some (get_comm (NcclCliqueKey.mk participants stream_id) rank,
               true)) ∧
      LockNcclComm is_global replica_count (.ok participants) gid cb
          acquire_comm =
        (match participants.indexOf? gid with
         | none => (.error (.Internal "it != participants.end()"), false)
         | some rank =>
             match cb with
             | .error e => (.error e, false)
             | .ok _ => (acquire_comm participants rank, true))) := by
  constructor
  · intro hne
    constructor
    · simp [GetNcclComm, hne]
    · simp [LockNcclComm, hne]
  · intro is_global hpass
    have hcond : (is_global && participants.length != replica_count) = false := by
      rcases hpass with h | h <;> simp [h]
    constructor
    · simp [GetNcclComm, hcond]
    · simp [LockNcclComm, hcond]

/-- C8 witness: two participants against a replica count of three under
the global configuration yield the `InvalidArgument` error, unacquired,
from both functions. -/
theorem GlobalNcclConfig_participant_check_witness :
    GetNcclComm true 3 (.ok [11, 22]) 22 0 (fun _ rank => .ok rank) =
      some (.error (.InvalidArgument kPartialReplicaGroupsMsg), false) ∧
    LockNcclComm true 3 (.ok [11, 22]) 22 (.ok ())
        (fun _ rank => .ok rank) =
      (.error (.InvalidArgument kPartialReplicaGroupsMsg), false) :=
  (GlobalNcclConfig_participant_check 3 [11, 22] 22 0
    (fun _ rank => .ok rank) (.ok ()) (fun _ rank => .ok rank)).1
    (by decide)

/-- C9: when the calling device is a member of the resolved participant
list, the clique key's rank lookup yields exactly the device's zero-based
position in that ordering, so the unchecked dereference in `GetNcclComm`
never hits the empty case, and `LockNcclComm`'s explicit membership check
establishes the same rank and passes it to the acquisition. -/
theorem rank_lookup_of_member (participants : List GlobalDeviceId)
    (gid : GlobalDeviceId) (stream_id : Int) (is_global : Bool)
    (replica_count : Nat)
    (get_comm : NcclCliqueKey → Nat → Except ErrorCode CommLock)
    (cb : Except ErrorCode Unit)
    (acquire_comm : List GlobalDeviceId → Nat → Except ErrorCode CommLock)
    (hmem : gid ∈ participants) :
    (NcclCliqueKey.mk participants stream_id).rank gid =
      some (participants.indexOf gid) ∧
    GetNcclComm is_global replica_count (.ok participants) gid stream_id
      get_comm ≠ none ∧
    (cb = .ok () →
      (is_global = false ∨ participants.length = replica_count) →
      LockNcclComm is_global replica_count (.ok participants) gid cb
          acquire_comm =
        (acquire_comm participants (participants.indexOf gid), true)) := by
  have hidx : participants.indexOf? gid = some (participants.indexOf gid) :=
    indexOf?_eq_some_of_mem hmem
  have hrank : (NcclCliqueKey.mk participants stream_id).rank gid =
      some (participants.indexOf gid) := by
    unfold NcclCliqueKey.rank
    exact hidx
  refine ⟨hrank, ?_, ?_⟩
  · by_cases hg : (is_global && participants.length != replica_count) = true
    · simp [GetNcclComm, hg]
    · simp only [Bool.not_eq_true] at hg
      simp [GetNcclComm, hg, hrank]
  · intro hcb hpass
    have hcond : (is_global && participants.length != replica_count) =
        false := by
      rcases hpass with h | h <;> simp [h]
    simp [LockNcclComm, hcond, hidx, hcb]

/-- C9 witness: with participants [11, 22] and calling device 22, the rank
lookup yields position 1 and `LockNcclComm` hands rank 1 to the
acquisition. -/
theorem rank_lookup_of_member_witness :
    (NcclCliqueKey.mk [11, 22] 0).rank 22 = some 1 ∧
    LockNcclComm false 2 (.ok [11, 22]) 22 (.ok ())
        (fun _ rank => .ok rank) = (.ok 1, true) := by
  have h := rank_lookup_of_member [11, 22] 22 0 false 2
    (fun _ rank => .ok rank) (.ok ()) (fun _ rank => .ok rank)
    (by decide)
  refine ⟨?_, ?_⟩
  · have h1 := h.1
    simpa using h1
  · have h3 := h.2.2 rfl (Or.inl rfl)
    simpa using h3

end XlaGpu
